import Mathlib

/-!
Shallow embedding of the core of `ssh-key-manager` (files `src/sshclient.rs`,
`src/routes/hosts.rs`, `src/routes/diff.rs`) and proofs about it.

Strings are embedded as lists of characters (`Str`); Rust iterators over
string pieces become explicit recursive functions.  Network and database
effects are embedded as explicit oracle parameters: a function argument
describes the outcome the external world would produce, and the embedded
function reproduces the Rust control flow over those outcomes.
-/

/-- Rust `&str` / `String`, embedded as a list of characters. -/
abbrev Str := List Char

/-- Coerce a Lean string literal to the embedding. -/
def str (s : String) : Str := s.data

/-! ## Key codec (src/sshclient.rs) -/

/-- `enum KeyOwner` from src/sshclient.rs: owner of a key, a host, a user
or nobody (`KeyOwner::None`). -/
inductive KeyOwner where
  | Host (id : Int)
  | User (id : Int)
  | None
deriving DecidableEq

/-- `struct SshPublicKey` from src/sshclient.rs. -/
structure SshPublicKey where
  key_type : Str
  key_base64 : Str
  comment : Option Str
  owner : KeyOwner
deriving DecidableEq

/-- `enum KeyParseError` from src/sshclient.rs. -/
inductive KeyParseError where
  | Malformed
deriving DecidableEq

/-- One step of Rust `splitn(_, ' ')`: the part of the string before the
first space, and, when a space exists, the remainder after that space. -/
def breakOnSpace : Str → Str × Option Str
  | [] => ([], none)
  | c :: cs =>
    if c = ' ' then ([], some cs)
    else
      let r := breakOnSpace cs
      (c :: r.1, r.2)

/-- `impl TryFrom<&str> for SshPublicKey` (src/sshclient.rs lines 98-113):
`key_string.splitn(3, ' ')`, first part is the key type, second the base64
(its absence is `KeyParseError::Malformed`), third — the unsplit remainder —
the optional comment. -/
def sshPublicKey_try_from (key_string : Str) : Except KeyParseError SshPublicKey :=
  let p1 := breakOnSpace key_string
  match p1.2 with
  | none => .error .Malformed
  | some rest =>
    let p2 := breakOnSpace rest
    .ok { key_type := p1.1, key_base64 := p2.1, comment := p2.2, owner := .None }

/-- `impl Display for SshPublicKey` (src/sshclient.rs lines 39-50):
`"Type: {}; Comment: {}; Base64: {}"` with a comment, otherwise
`"Type: {}; Base64: {}"`. -/
def sshPublicKey_display (k : SshPublicKey) : Str :=
  match k.comment with
  | some c =>
      str "Type: " ++ k.key_type ++ str "; Comment: " ++ c ++
        str "; Base64: " ++ k.key_base64
  | none => str "Type: " ++ k.key_type ++ str "; Base64: " ++ k.key_base64

/-- Full split of a character list at every newline character. -/
def splitOnNl : Str → List Str
  | [] => [[]]
  | c :: cs =>
    if c = '\n' then [] :: splitOnNl cs
    else
      match splitOnNl cs with
      | [] => [[c]]
      | l :: ls => (c :: l) :: ls

/-- Remove one trailing carriage return, as Rust `lines()` does on a
newline-terminated line. -/
def stripTrailingCr (s : Str) : Str :=
  match s.reverse with
  | '\r' :: rest => rest.reverse
  | _ => s

/-- Rust `str::lines()`: split at `\n`, strip a `\r` left at the end of a
newline-terminated line, and do not produce a final empty line for a
trailing newline. -/
def rustLines (s : Str) : List Str :=
  match (splitOnNl s).reverse with
  | [] => []
  | last :: revInit =>
    let init := revInit.reverse.map stripTrailingCr
    if last = [] then init else init ++ [last]

/-- Rust `line.starts_with('#')`. -/
def startsWithHash : Str → Bool
  | '#' :: _ => true
  | _ => false

/-- The per-line body of `SshPublicKey::from_lines`
(src/sshclient.rs lines 84-94): keep the lines that do not start with `#`,
parse each, drop the failures (they are only logged). -/
def processLines (ls : List Str) : List SshPublicKey :=
  (ls.filter (fun line => !startsWithHash line)).filterMap
    (fun line => (sshPublicKey_try_from line).toOption)

/-- `SshPublicKey::from_lines` (src/sshclient.rs lines 83-96). -/
def from_lines (lines : Str) : List SshPublicKey :=
  processLines (rustLines lines)

/-- The `PublicKey` database record shape consumed by
`impl From<PublicKey> for SshPublicKey` (src/sshclient.rs lines 59-74). -/
structure PublicKey where
  key_type : Str
  key_base64 : Str
  comment : Option Str
  user_id : Option Int
  host_id : Option Int
deriving DecidableEq

/-- `impl From<PublicKey> for SshPublicKey` (src/sshclient.rs lines 59-74):
the owner is the user when `user_id` is set, else the host when `host_id`
is set, else `KeyOwner::None`. -/
def sshPublicKey_from_publicKey (value : PublicKey) : SshPublicKey :=
  { key_type := value.key_type
    key_base64 := value.key_base64
    comment := value.comment
    owner :=
      match value.user_id with
      | some user => .User user
      | none =>
        match value.host_id with
        | some host_id => .Host host_id
        | none => .None }

/-! ## SshClient command execution (src/sshclient.rs) -/

/-- `enum SshClientError` from src/sshclient.rs. -/
inductive SshClientError where
  | DatabaseError (t : Str)
  | SshError (t : Str)
  | ExecutionError (t : Str)
  | NoSuchHost
deriving DecidableEq

/-- The `CommandExecutedResult` produced by `client.execute`: an exit
status and the captured standard output. -/
structure CommandExecutedResult where
  exit_status : Nat
  stdout : Str
deriving DecidableEq

/-- Decimal rendering of a natural number, for the embedded `format!`. -/
def natToStr (n : Nat) : Str := (Nat.repr n).data

/-- `SshClient::run_command` (src/sshclient.rs lines 156-170) over the
outcome of `client.execute`: a transport error becomes
`ExecutionError`, a non-zero exit status becomes `ExecutionError`,
otherwise the stdout is returned. -/
def run_command (execute_result : Except Str CommandExecutedResult) :
    Except SshClientError Str :=
  match execute_result with
  | .error e => .error (.ExecutionError e)
  | .ok result =>
    if result.exit_status ≠ 0 then
      .error (.ExecutionError (str "Command exited with code " ++ natToStr result.exit_status))
    else
      .ok result.stdout

/-! ## Connection establishment (src/sshclient.rs) -/

/-- The key loop of `SshClient::try_connect` (src/sshclient.rs lines
191-208): try the stored host keys in list order with `connect` (the
outcome of one `Client::connect` handshake verified against one stored
key, `none` when it fails); the first success is returned, and when every
stored key fails — also for an empty list — the trust failure
`SshError("Didn't find a matching host key")` is returned. -/
def try_connect_loop {Client : Type} (connect : Str → Option Client) :
    List Str → Except SshClientError Client
  | [] => .error (.SshError (str "Didn't find a matching host key"))
  | key :: rest =>
    match connect key with
    | some conn => .ok conn
    | none => try_connect_loop connect rest

/-- `SshClient::try_connect` (src/sshclient.rs lines 185-209).
`hostkeys_result` is the outcome of `host.get_hostkeys` (the stored
base64 host keys read from the database); `connect` is the handshake
oracle keyed by the stored key passed as `ServerCheckMethod::PublicKey`. -/
def try_connect {Client : Type} (hostkeys_result : Except Str (List Str))
    (connect : Str → Option Client) : Except SshClientError Client :=
  match hostkeys_result with
  | .error _ =>
    .error (.DatabaseError (str "Failed to query host key from database."))
  | .ok host_keys => try_connect_loop connect host_keys

/-- View of an `Except` value as a sum, to derive decidable equality. -/
def exceptToSum {ε α : Type} : Except ε α → ε ⊕ α
  | .error e => .inl e
  | .ok a => .inr a

instance exceptDecEq {ε α : Type} [DecidableEq ε] [DecidableEq α] :
    DecidableEq (Except ε α) := fun a b =>
  decidable_of_iff (exceptToSum a = exceptToSum b)
    (by cases a <;> cases b <;> simp [exceptToSum])

/-- Outcome of `SshClient::get_authorized_keys`: the returned value and
whether `client.disconnect()` was invoked on the established session. -/
structure GetAuthorizedKeysOutcome where
  result : Except SshClientError (List SshPublicKey)
  disconnected : Bool
deriving DecidableEq

/-- `SshClient::get_authorized_keys` (src/sshclient.rs lines 215-258)
over the outcomes of its effects: `connect_result` from `try_connect`
(the session itself carries no data we need), `execute_result` from
`client.execute("cat ~/.ssh/authorized_keys")`, and `insert_result` from
`host.insert_authorized_keys` (only logged on error).  A transport error
from `execute` is mapped by `to_connection_err` to `SshError` and
returned early — before the `disconnect` call; after a completed
execution the session is disconnected (errors swallowed), then a
non-zero exit status is reported as
`SshError("Command exited with non-zero exit code")`, and otherwise the
non-`#` parseable stdout lines are returned. -/
def get_authorized_keys (connect_result : Except SshClientError Unit)
    (execute_result : Except Str CommandExecutedResult)
    (insert_result : Except Str Unit) : GetAuthorizedKeysOutcome :=
  match connect_result with
  | .error e => { result := .error e, disconnected := false }
  | .ok _ =>
    match execute_result with
    | .error e => { result := .error (.SshError e), disconnected := false }
    | .ok command =>
      if command.exit_status ≠ 0 then
        { result := .error (.SshError (str "Command exited with non-zero exit code"))
          disconnected := true }
      else
        let authorized_keys : List SshPublicKey :=
          (rustLines command.stdout).filterMap (fun auth_line =>
            if startsWithHash auth_line then none
            else (sshPublicKey_try_from auth_line).toOption)
        match insert_result with
        | .ok _ => { result := .ok authorized_keys, disconnected := true }
        | .error _ => { result := .ok authorized_keys, disconnected := true }

/-! ## The add_host route (src/routes/hosts.rs) -/

/-- The `Host` database record shape used by src/routes/hosts.rs. -/
structure Host where
  id : Int
  name : Str
  hostname : Str
  port : Int
  username : Str
  key_fingerprint : Str
  jump_via : Option Int
deriving DecidableEq

/-- `struct NewHost` as built by `add_host`
(src/routes/hosts.rs lines 241-248). -/
structure NewHost where
  name : Str
  hostname : Str
  port : Int
  username : Str
  key_fingerprint : Str
  jump_via : Option Int
deriving DecidableEq

/-- `struct HostAddForm` (src/routes/hosts.rs lines 140-148). -/
structure HostAddForm where
  name : Str
  username : Str
  hostname : Str
  port : Int
  jumphost : Option Int
  key_fingerprint : Option Str
deriving DecidableEq

/-- `struct ConnectionDetails`: a validated hostname/port pair.  Its
constructor lives outside src/, so it is kept abstract here; `add_host`
receives the outcome of `ConnectionDetails::new_from_signed` as an
oracle. -/
structure ConnectionDetails where
  hostname : Str
  port : Int
deriving DecidableEq

/-- `struct HostkeyDialog` (src/routes/hosts.rs lines 130-138), the data
rendered back to the caller in the trust-offer dialog. -/
structure HostkeyDialog where
  name : Str
  username : Str
  hostname : Str
  port : Int
  key_fingerprint : Str
  jumphost : Option Int
deriving DecidableEq

/-- The `FormResponseBuilder` responses `add_host` produces. -/
inductive FormResponse where
  | error (msg : Str)
  | notFound (msg : Str)
  | dialog (d : HostkeyDialog)
  | created (msg : Str)
deriving DecidableEq

/-- Observable outcome of `add_host`: the HTTP-level response, the
`NewHost` handed to `Host::add_host` when that call was reached (`none`
when no insert was attempted), and the parameters of the
`try_authenticate` / `try_authenticate_via` call when one was made
(jump host, address, fingerprint, username). -/
structure AddHostOutcome where
  response : FormResponse
  attempted_insert : Option NewHost
  auth_attempt : Option (Option Host × ConnectionDetails × Str × Str)
deriving DecidableEq

/-- The tail of `add_host` (src/routes/hosts.rs lines 178-256) after the
jump host has been resolved to `maybe_jumphost`: validate the connection
details, then either run the fingerprint-capture dialog flow (no
`key_fingerprint` in the form) or the trust-confirmation flow
(authenticate against exactly the submitted fingerprint, and only on
success build the `NewHost` — carrying that fingerprint and
`maybe_jumphost`'s id — and hand it to `Host::add_host`). -/
def add_host_resolved (form : HostAddForm) (maybe_jumphost : Option Host)
    (new_from_signed : Str → Int → Option ConnectionDetails)
    (get_hostkey : Option Host → ConnectionDetails → Except Str (Except Unit Str))
    (try_authenticate : Option Host → ConnectionDetails → Str → Str → Except Str Unit)
    (db_add_host : NewHost → Except Str Unit) : AddHostOutcome :=
  match new_from_signed form.hostname form.port with
  | none =>
    { response := .error (str "Invalid port number")
      attempted_insert := none, auth_attempt := none }
  | some address =>
    match form.key_fingerprint with
    | none =>
      match get_hostkey maybe_jumphost address with
      | .error e =>
        { response := .error e, attempted_insert := none, auth_attempt := none }
      | .ok recv_result =>
        match recv_result with
        | .error _ =>
          { response := .error (str "Connection timed out")
            attempted_insert := none, auth_attempt := none }
        | .ok key_fingerprint =>
          { response := .dialog
              { name := form.name, username := form.username
                hostname := form.hostname, port := form.port
                key_fingerprint := key_fingerprint, jumphost := form.jumphost }
            attempted_insert := none, auth_attempt := none }
    | some key_fingerprint =>
      match try_authenticate maybe_jumphost address key_fingerprint form.username with
      | .error e =>
        { response := .error e, attempted_insert := none
          auth_attempt := some (maybe_jumphost, address, key_fingerprint, form.username) }
      | .ok _ =>
        let new_host : NewHost :=
          { name := form.name, hostname := form.hostname, port := form.port
            username := form.username, key_fingerprint := key_fingerprint
            jump_via := maybe_jumphost.map (fun h => h.id) }
        match db_add_host new_host with
        | .ok _ =>
          { response := .created (str "Added host")
            attempted_insert := some new_host
            auth_attempt := some (maybe_jumphost, address, key_fingerprint, form.username) }
        | .error e =>
          { response := .error e
            attempted_insert := some new_host
            auth_attempt := some (maybe_jumphost, address, key_fingerprint, form.username) }

/-- `add_host` (src/routes/hosts.rs lines 150-256).  `get_host_id` is
the jump-host database lookup: a negative `jumphost` id is treated as
absent, a lookup failure answers "Couldn't find jump host", and a lookup
returning no row silently leaves the jump host absent. -/
def add_host (form : HostAddForm)
    (get_host_id : Int → Except Str (Option Host))
    (new_from_signed : Str → Int → Option ConnectionDetails)
    (get_hostkey : Option Host → ConnectionDetails → Except Str (Except Unit Str))
    (try_authenticate : Option Host → ConnectionDetails → Str → Str → Except Str Unit)
    (db_add_host : NewHost → Except Str Unit) : AddHostOutcome :=
  match form.jumphost with
  | some via =>
    if via < 0 then
      add_host_resolved form none new_from_signed get_hostkey try_authenticate db_add_host
    else
      match get_host_id via with
      | .ok j =>
        add_host_resolved form j new_from_signed get_hostkey try_authenticate db_add_host
      | .error _ =>
        { response := .notFound (str "Couldn't find jump host")
          attempted_insert := none, auth_attempt := none }
  | none =>
    add_host_resolved form none new_from_signed get_hostkey try_authenticate db_add_host

/-! ## The jump_via relation as a table of hosts -/

/-- Database lookup of a host by id in a table of `Host` rows. -/
def lookupHost (table : List Host) (i : Int) : Option Host :=
  table.find? (fun h => h.id = i)

/-- Fuelled walk of the `jump_via` chain starting at host id `i`:
`true` when within `fuel` steps the chain reaches a host with no
`jump_via`.  A dangling id (no row) stops the walk unsuccessfully. -/
def chainTerminates (table : List Host) : Nat → Int → Bool
  | 0, _ => false
  | fuel + 1, i =>
    match lookupHost table i with
    | none => false
    | some h =>
      match h.jump_via with
      | none => true
      | some j => chainTerminates table fuel j

/-- Every `jump_via` reference in the table points at a row of the table. -/
def ClosedTable (table : List Host) : Prop :=
  ∀ h ∈ table, ∀ j, h.jump_via = some j → ∃ g ∈ table, g.id = j

/-- The `jump_via` relation is acyclic and terminating: from every row
the chain reaches, within `table.length + 1` steps, a host with no
`jump_via`. -/
def AcyclicTable (table : List Host) : Prop :=
  ∀ h ∈ table, chainTerminates table (table.length + 1) h.id = true

/-- The row the storage layer creates for a persisted `NewHost`, under a
database-assigned fresh id. -/
def insertNewHost (table : List Host) (nh : NewHost) (new_id : Int) : List Host :=
  { id := new_id, name := nh.name, hostname := nh.hostname, port := nh.port
    username := nh.username, key_fingerprint := nh.key_fingerprint
    jump_via := nh.jump_via } :: table

/-! ## Reconciliation diff (Reconciliation Engine) -/

/-- Key identity for the diff: key type and base64 material. -/
abbrev KeyId := Str × Str

/-- The three partitions of a `HostDiff`. -/
structure HostDiffPartition where
  matching : Finset KeyId
  expected_absent : Finset KeyId
  unexpected : Finset KeyId
deriving DecidableEq

/-- Modelled from the spec: the partition step of
`SshClient::get_host_diff`, whose implementation is not among the
provided sources (only its caller `render_diff` in src/routes/diff.rs
is).  Per the spec, with `expected` the User keys joined through
Authorization for the host and `observed` the remote authorized-keys
set, the diff partitions by key identity (type plus base64) into
matching / expected-but-absent / present-but-unexpected. -/
def get_host_diff_partition (expected observed : Finset KeyId) : HostDiffPartition :=
  { matching := expected ∩ observed
    expected_absent := expected \ observed
    unexpected := observed \ expected }

/-- Spec-side token notion used by claim C5, for comparison with the
source parser: the nonempty space-separated tokens of a line
("a type token and a base64 token separated by whitespace"). -/
def wsTokens (s : Str) : List Str :=
  (List.splitOn ' ' s).filter (fun t => t ≠ [])

/-! ## Helper lemmas -/

theorem breakOnSpace_eq (s : Str) :
    breakOnSpace s =
      (s.takeWhile (fun c => c ≠ ' '),
       if ' ' ∈ s then some ((s.dropWhile (fun c => c ≠ ' ')).tail) else none) := by
  induction s with
  | nil => simp [breakOnSpace]
  | cons c cs ih =>
    by_cases hc : c = ' '
    · subst hc
      simp [breakOnSpace, List.takeWhile_cons, List.dropWhile_cons]
    · simp [breakOnSpace, hc, List.takeWhile_cons, List.dropWhile_cons, ih, List.mem_cons,
        Ne.symm hc]

theorem breakOnSpace_of_not_mem {t : Str} (h : ' ' ∉ t) : breakOnSpace t = (t, none) := by
  induction t with
  | nil => simp [breakOnSpace]
  | cons c cs ih =>
    simp only [List.mem_cons, not_or] at h
    simp [breakOnSpace, Ne.symm h.1, ih h.2]

theorem breakOnSpace_append {t r : Str} (h : ' ' ∉ t) :
    breakOnSpace (t ++ ' ' :: r) = (t, some r) := by
  induction t with
  | nil => simp [breakOnSpace]
  | cons c cs ih =>
    simp only [List.mem_cons, not_or] at h
    simp [breakOnSpace, Ne.symm h.1, ih h.2]

theorem try_connect_loop_eq {Client : Type} (connect : Str → Option Client)
    (keys : List Str) :
    try_connect_loop connect keys =
      match keys.findSome? connect with
      | some c => .ok c
      | none => .error (.SshError (str "Didn't find a matching host key")) := by
  induction keys with
  | nil => simp [try_connect_loop, List.findSome?]
  | cons k rest ih =>
    simp only [try_connect_loop, List.findSome?]
    cases connect k <;> simp [ih]

theorem chainTerminates_mono (table : List Host) :
    ∀ {f1 f2 : Nat} {i : Int}, f1 ≤ f2 →
      chainTerminates table f1 i = true → chainTerminates table f2 i = true := by
  intro f1
  induction f1 with
  | zero => intro f2 i _ h; simp [chainTerminates] at h
  | succ f ih =>
    intro f2 i hle h
    obtain ⟨f2p, rfl⟩ : ∃ g, f2 = g + 1 :=
      ⟨f2 - 1, by omega⟩
    simp only [chainTerminates] at h ⊢
    cases hl : lookupHost table i with
    | none => simp [hl] at h
    | some hh =>
      simp only [hl] at h ⊢
      cases hj : hh.jump_via with
      | none => simp [hj]
      | some j =>
        simp only [hj] at h ⊢
        exact ih (by omega) h

theorem lookupHost_cons_of_ne {table : List Host} {new : Host} {i : Int}
    (h : ¬ new.id = i) : lookupHost (new :: table) i = lookupHost table i := by
  simp only [lookupHost, List.find?]
  simp [h]

theorem lookupHost_mem {table : List Host} {i : Int} {h : Host}
    (hl : lookupHost table i = some h) : h ∈ table ∧ h.id = i := by
  constructor
  · exact List.mem_of_find?_eq_some hl
  · have := List.find?_some hl
    simpa using this

theorem lookupHost_isSome {table : List Host} {i : Int} {g : Host}
    (hg : g ∈ table) (hid : g.id = i) : ∃ h, lookupHost table i = some h := by
  have : (lookupHost table i).isSome := by
    apply List.find?_isSome.mpr
    exact ⟨g, hg, by simp [hid]⟩
  exact Option.isSome_iff_exists.mp this

theorem chainTerminates_cons (table : List Host) (new : Host)
    (hfresh : ∀ h ∈ table, h.id ≠ new.id) (hclosed : ClosedTable table) :
    ∀ fuel : Nat, ∀ i : Int, (∃ g ∈ table, g.id = i) →
      chainTerminates table fuel i = true →
      chainTerminates (new :: table) fuel i = true := by
  intro fuel
  induction fuel with
  | zero => intro i _ h; simp [chainTerminates] at h
  | succ f ih =>
    intro i hrow h
    obtain ⟨g, hg, hgid⟩ := hrow
    have hne : ¬ new.id = i := by
      intro he; exact hfresh g hg (by omega)
    simp only [chainTerminates] at h ⊢
    rw [lookupHost_cons_of_ne hne]
    cases hl : lookupHost table i with
    | none => simp [hl] at h
    | some hh =>
      simp only [hl] at h ⊢
      cases hj : hh.jump_via with
      | none => simp [hj]
      | some j =>
        simp only [hj] at h ⊢
        have hhmem := (lookupHost_mem hl).1
        exact ih j (hclosed hh hhmem j hj) h

theorem lookupHost_cons_self {table : List Host} {new : Host} {i : Int}
    (h : new.id = i) : lookupHost (new :: table) i = some new := by
  simp only [lookupHost, List.find?]
  simp [h]

theorem add_host_resolved_insert_jump (form : HostAddForm) (mj : Option Host)
    (nfs : Str → Int → Option ConnectionDetails)
    (ghk : Option Host → ConnectionDetails → Except Str (Except Unit Str))
    (ta : Option Host → ConnectionDetails → Str → Str → Except Str Unit)
    (db : NewHost → Except Str Unit) :
    ∀ nh, (add_host_resolved form mj nfs ghk ta db).attempted_insert = some nh →
      nh.jump_via = Option.map (fun h => h.id) mj := by
  intro nh h
  cases hcd : nfs form.hostname form.port with
  | none => simp [add_host_resolved, hcd] at h
  | some address =>
    cases hkf : form.key_fingerprint with
    | none =>
      cases hg : ghk mj address with
      | error e => simp [add_host_resolved, hcd, hkf, hg] at h
      | ok rr =>
        cases rr with
        | error e2 => simp [add_host_resolved, hcd, hkf, hg] at h
        | ok fp2 => simp [add_host_resolved, hcd, hkf, hg] at h
    | some fp2 =>
      cases hauth : ta mj address fp2 form.username with
      | error e => simp [add_host_resolved, hcd, hkf, hauth] at h
      | ok uu =>
        cases uu
        cases hdb : db { name := form.name, hostname := form.hostname, port := form.port, username := form.username, key_fingerprint := fp2, jump_via := Option.map (fun h => h.id) mj } with
        | ok uv =>
          cases uv
          simp only [add_host_resolved, hcd, hkf, hauth, hdb] at h
          simp only [Option.some.injEq] at h
          subst h
          rfl
        | error e1 =>
          simp only [add_host_resolved, hcd, hkf, hauth, hdb] at h
          simp only [Option.some.injEq] at h
          subst h
          rfl

theorem add_host_resolved_spec (form : HostAddForm) (mj : Option Host) (fp : Str)
    (nfs : Str → Int → Option ConnectionDetails)
    (ghk : Option Host → ConnectionDetails → Except Str (Except Unit Str))
    (ta : Option Host → ConnectionDetails → Str → Str → Except Str Unit)
    (db : NewHost → Except Str Unit)
    (hfp : form.key_fingerprint = some fp) :
    (∀ nh, (add_host_resolved form mj nfs ghk ta db).attempted_insert = some nh →
      nh.key_fingerprint = fp ∧
      ∃ a, (add_host_resolved form mj nfs ghk ta db).auth_attempt =
            some (mj, a, fp, form.username) ∧
        ta mj a fp form.username = Except.ok ()) ∧
    (∀ mj2 a f u e,
      (add_host_resolved form mj nfs ghk ta db).auth_attempt = some (mj2, a, f, u) →
      ta mj2 a f u = Except.error e →
      f = fp ∧ u = form.username ∧
      (add_host_resolved form mj nfs ghk ta db).response = FormResponse.error e ∧
      (add_host_resolved form mj nfs ghk ta db).attempted_insert = none) := by
  cases hcd : nfs form.hostname form.port with
  | none =>
    constructor
    · intro nh h
      simp [add_host_resolved, hcd] at h
    · intro mj2 a f u e h _
      simp [add_host_resolved, hcd] at h
  | some address =>
    cases hauth : ta mj address fp form.username with
    | error e0 =>
      constructor
      · intro nh h
        simp [add_host_resolved, hcd, hfp, hauth] at h
      · intro mj2 a f u e h hta
        simp only [add_host_resolved, hcd, hfp, hauth] at h
        simp only [Option.some.injEq, Prod.mk.injEq] at h
        obtain ⟨rfl, rfl, rfl, rfl⟩ := h
        have he : e0 = e := by
          rw [hauth] at hta
          exact Except.error.inj hta
        subst he
        refine ⟨rfl, rfl, ?_, ?_⟩
        · simp [add_host_resolved, hcd, hfp, hauth]
        · simp [add_host_resolved, hcd, hfp, hauth]
    | ok uu =>
      cases uu
      cases hdb : db { name := form.name, hostname := form.hostname, port := form.port, username := form.username, key_fingerprint := fp, jump_via := Option.map (fun h => h.id) mj } with
      | ok uv =>
        cases uv
        constructor
        · intro nh h
          simp only [add_host_resolved, hcd, hfp, hauth, hdb] at h
          simp only [Option.some.injEq] at h
          subst h
          exact ⟨rfl, address, by simp [add_host_resolved, hcd, hfp, hauth, hdb], hauth⟩
        · intro mj2 a f u e h hta
          simp only [add_host_resolved, hcd, hfp, hauth, hdb] at h
          simp only [Option.some.injEq, Prod.mk.injEq] at h
          obtain ⟨rfl, rfl, rfl, rfl⟩ := h
          rw [hauth] at hta
          exact absurd hta (by simp)
      | error e1 =>
        constructor
        · intro nh h
          simp only [add_host_resolved, hcd, hfp, hauth, hdb] at h
          simp only [Option.some.injEq] at h
          subst h
          exact ⟨rfl, address, by simp [add_host_resolved, hcd, hfp, hauth, hdb], hauth⟩
        · intro mj2 a f u e h hta
          simp only [add_host_resolved, hcd, hfp, hauth, hdb] at h
          simp only [Option.some.injEq, Prod.mk.injEq] at h
          obtain ⟨rfl, rfl, rfl, rfl⟩ := h
          rw [hauth] at hta
          exact absurd hta (by simp)

theorem add_host_cases (form : HostAddForm)
    (gid : Int → Except Str (Option Host))
    (nfs : Str → Int → Option ConnectionDetails)
    (ghk : Option Host → ConnectionDetails → Except Str (Except Unit Str))
    (ta : Option Host → ConnectionDetails → Str → Str → Except Str Unit)
    (db : NewHost → Except Str Unit) :
    (∃ mj, add_host form gid nfs ghk ta db = add_host_resolved form mj nfs ghk ta db ∧
      (mj = none ∨ ∃ via, form.jumphost = some via ∧ gid via = Except.ok mj)) ∨
    ((add_host form gid nfs ghk ta db).attempted_insert = none ∧
     (add_host form gid nfs ghk ta db).auth_attempt = none) := by
  cases hj : form.jumphost with
  | none =>
    exact Or.inl ⟨none, by simp [add_host, hj], Or.inl rfl⟩
  | some via =>
    by_cases hv : via < 0
    · exact Or.inl ⟨none, by simp [add_host, hj, hv], Or.inl rfl⟩
    · cases hg : gid via with
      | ok j =>
        exact Or.inl ⟨j, by simp [add_host, hj, hv, hg], Or.inr ⟨via, rfl, hg⟩⟩
      | error e =>
        refine Or.inr ⟨?_, ?_⟩ <;> simp [add_host, hj, hv, hg]

/-! ## Claim theorems -/

/-- Claim C1: with the stored host-key list read successfully from the
database, `try_connect` attempts the connection with each stored key in
list order and returns the first session that succeeds
(`List.findSome?`); when no stored key yields a verified session —
including for an empty stored list — it returns the
`SshError("Didn't find a matching host key")` trust failure; and any
returned session was produced by a handshake verified against one of
the stored keys. -/
theorem C1_try_connect_trust {Client : Type} (connect : Str → Option Client)
    (keys : List Str) (c : Client) :
    (try_connect (Except.ok keys) connect = .ok c ↔ keys.findSome? connect = some c) ∧
    ((∀ k ∈ keys, connect k = none) →
      try_connect (Except.ok keys) connect =
        .error (.SshError (str "Didn't find a matching host key"))) ∧
    (try_connect (Except.ok keys) connect = .ok c → ∃ k ∈ keys, connect k = some c) := by
  have hloop := try_connect_loop_eq connect keys
  have hunfold : try_connect (Except.ok keys) connect = try_connect_loop connect keys := rfl
  refine ⟨?_, ?_, ?_⟩
  · rw [hunfold, hloop]
    cases hf : keys.findSome? connect <;> simp
  · intro hall
    rw [hunfold, hloop]
    have : keys.findSome? connect = none := by
      rw [List.findSome?_eq_none_iff]
      exact hall
    rw [this]
  · intro hok
    rw [hunfold, hloop] at hok
    cases hf : keys.findSome? connect with
    | none => rw [hf] at hok; exact absurd hok (by simp)
    | some v =>
      rw [hf] at hok
      have hv : v = c := by simpa using hok
      subst hv
      have := List.exists_of_findSome?_eq_some hf
      obtain ⟨k, hk, hck⟩ := this
      exact ⟨k, hk, hck⟩

/-- Claim C1 witness: with stored keys `["A", "B"]` and a handshake that
only succeeds against `"B"` (yielding session `5`), `try_connect`
returns session `5`, which was verified against the stored key `"B"`. -/
theorem C1_try_connect_trust_witness :
    try_connect (Except.ok [str "A", str "B"])
      (fun k => if k = str "B" then some 5 else none) = .ok 5 ∧
    (∃ k ∈ [str "A", str "B"],
      (fun k => if k = str "B" then some 5 else none) k = some 5) := by
  have h := C1_try_connect_trust (fun k => if k = str "B" then some 5 else none)
    [str "A", str "B"] 5
  have h1 : try_connect (Except.ok [str "A", str "B"])
      (fun k => if k = str "B" then some 5 else none) = .ok 5 :=
    h.1.mpr (by decide)
  exact ⟨h1, h.2.2 h1⟩

/-- Claim C4: the spec-modelled diff partition is total and disjoint:
matching together with expected-but-absent is exactly the expected set,
matching together with present-but-unexpected is exactly the observed
set, and the three parts are pairwise disjoint — no key identity lies in
more than one partition. -/
theorem C4_diff_partition_total (E O : Finset KeyId) :
    (get_host_diff_partition E O).matching ∪ (get_host_diff_partition E O).expected_absent = E ∧
    (get_host_diff_partition E O).matching ∪ (get_host_diff_partition E O).unexpected = O ∧
    Disjoint (get_host_diff_partition E O).matching (get_host_diff_partition E O).expected_absent ∧
    Disjoint (get_host_diff_partition E O).matching (get_host_diff_partition E O).unexpected ∧
    Disjoint (get_host_diff_partition E O).expected_absent (get_host_diff_partition E O).unexpected := by
  simp only [get_host_diff_partition]
  refine ⟨?_, ?_, ?_, ?_, ?_⟩
  · ext a; simp [Finset.mem_union, Finset.mem_inter, Finset.mem_sdiff]; tauto
  · ext a; simp [Finset.mem_union, Finset.mem_inter, Finset.mem_sdiff]; tauto
  · rw [Finset.disjoint_left]; intro a ha hb
    simp [Finset.mem_inter, Finset.mem_sdiff] at ha hb; tauto
  · rw [Finset.disjoint_left]; intro a ha hb
    simp [Finset.mem_inter, Finset.mem_sdiff] at ha hb; tauto
  · rw [Finset.disjoint_left]; intro a ha hb
    simp [Finset.mem_sdiff] at ha hb; tauto

/-- Claim C5 counterexample: on the line `"a  b"` (two spaces) the
whitespace-delimited tokens are `"a"` and `"b"`, so under the claim the
parse must succeed with `key_base64 = "b"`; the code — which splits at
single space characters — instead succeeds with an empty `key_base64`
(and comment `"b"`). -/
theorem C5_counterexample :
    ¬ ((sshPublicKey_try_from (str "a  b") = .error .Malformed ↔
          (wsTokens (str "a  b")).length < 2) ∧
       (sshPublicKey_try_from (str "a  b")).toOption.map SshPublicKey.key_base64 =
          some ((wsTokens (str "a  b")).getD 1 [])) := by
  decide

/-- Claim C5 (amended): `SshPublicKey::try_from` splits at single space
characters (`splitn(3, ' ')`), not at general whitespace: it returns
`Malformed` exactly when the line contains no space character; otherwise
it succeeds with `key_type` the prefix before the first space,
`key_base64` the (possibly empty) segment between the first space and
the next space, and `comment` the remainder after that second space when
one exists, absent otherwise. -/
theorem C5_parse_single_space (line : Str) :
    (sshPublicKey_try_from line = .error .Malformed ↔ ' ' ∉ line) ∧
    (' ' ∈ line →
      sshPublicKey_try_from line = .ok
        { key_type := line.takeWhile (fun c => c ≠ ' ')
          key_base64 :=
            ((line.dropWhile (fun c => c ≠ ' ')).tail).takeWhile (fun c => c ≠ ' ')
          comment :=
            if ' ' ∈ (line.dropWhile (fun c => c ≠ ' ')).tail then
              some ((((line.dropWhile (fun c => c ≠ ' ')).tail).dropWhile
                (fun c => c ≠ ' ')).tail)
            else none
          owner := .None }) := by
  constructor
  · constructor
    · intro hm hmem
      simp only [sshPublicKey_try_from, breakOnSpace_eq, hmem, if_true] at hm
      exact absurd hm (by simp)
    · intro hmem
      simp only [sshPublicKey_try_from, breakOnSpace_eq, hmem, if_false]
  · intro hmem
    simp only [sshPublicKey_try_from, breakOnSpace_eq, hmem, if_true]

/-- Claim C5 witness for the amended statement: the line `"t b64 note"`
contains a space and parses into type `"t"`, base64 `"b64"` and comment
`"note"`. -/
theorem C5_parse_single_space_witness :
    ' ' ∈ str "t b64 note" ∧
    sshPublicKey_try_from (str "t b64 note") = .ok
      { key_type := (str "t b64 note").takeWhile (fun c => c ≠ ' ')
        key_base64 :=
          (((str "t b64 note").dropWhile (fun c => c ≠ ' ')).tail).takeWhile (fun c => c ≠ ' ')
        comment :=
          if ' ' ∈ ((str "t b64 note").dropWhile (fun c => c ≠ ' ')).tail then
            some (((((str "t b64 note").dropWhile (fun c => c ≠ ' ')).tail).dropWhile
              (fun c => c ≠ ' ')).tail)
          else none
        owner := .None } :=
  ⟨by decide, (C5_parse_single_space (str "t b64 note")).2 (by decide)⟩

/-- Claim C6 counterexample: serializing (the `Display` rendering of)
the key parsed from the well-formed line `"a b c"` does not give back
`"a b c"` — the code renders `"Type: a; Comment: c; Base64: b"`. -/
theorem C6_counterexample :
    ¬ ((sshPublicKey_try_from (str "a b c")).toOption.map sshPublicKey_display =
        some (str "a b c")) := by
  decide

/-- Claim C6 (amended): the `Display` rendering is not the inverse of
parsing; it uses the labelled format.  For every well-formed line
`T B C` (types and base64 free of spaces, the comment arbitrary) the
parsed key renders as `"Type: T; Comment: C; Base64: B"`, and for a
two-token line `T B` the parsed key has no comment and renders as
`"Type: T; Base64: B"`. -/
theorem C6_display_not_inverse (t b c : Str) (ht : ' ' ∉ t) (hb : ' ' ∉ b) :
    ((sshPublicKey_try_from (t ++ ' ' :: (b ++ ' ' :: c))).toOption.map sshPublicKey_display =
      some (str "Type: " ++ t ++ str "; Comment: " ++ c ++ str "; Base64: " ++ b)) ∧
    (sshPublicKey_try_from (t ++ ' ' :: b) =
      .ok { key_type := t, key_base64 := b, comment := none, owner := .None }) ∧
    ((sshPublicKey_try_from (t ++ ' ' :: b)).toOption.map sshPublicKey_display =
      some (str "Type: " ++ t ++ str "; Base64: " ++ b)) := by
  have h3 : sshPublicKey_try_from (t ++ ' ' :: (b ++ ' ' :: c)) =
      .ok { key_type := t, key_base64 := b, comment := some c, owner := .None } := by
    simp only [sshPublicKey_try_from, breakOnSpace_append ht, breakOnSpace_append hb]
  have h2 : sshPublicKey_try_from (t ++ ' ' :: b) =
      .ok { key_type := t, key_base64 := b, comment := none, owner := .None } := by
    simp only [sshPublicKey_try_from, breakOnSpace_append ht, breakOnSpace_of_not_mem hb]
  refine ⟨?_, h2, ?_⟩
  · rw [h3]
    simp [Except.toOption, sshPublicKey_display, List.append_assoc]
  · rw [h2]
    simp [Except.toOption, sshPublicKey_display, List.append_assoc]

/-- Claim C6 witness for the amended statement, at the line
`"ssh-rsa AAAA my key"`. -/
theorem C6_display_not_inverse_witness :
    ((sshPublicKey_try_from (str "ssh-rsa" ++ ' ' :: (str "AAAA" ++ ' ' :: str "my key"))).toOption.map
        sshPublicKey_display =
      some (str "Type: " ++ str "ssh-rsa" ++ str "; Comment: " ++ str "my key" ++
        str "; Base64: " ++ str "AAAA")) ∧
    (sshPublicKey_try_from (str "ssh-rsa" ++ ' ' :: str "AAAA") =
      .ok { key_type := str "ssh-rsa", key_base64 := str "AAAA", comment := none,
            owner := .None }) :=
  ⟨(C6_display_not_inverse (str "ssh-rsa") (str "AAAA") (str "my key")
      (by decide) (by decide)).1,
   (C6_display_not_inverse (str "ssh-rsa") (str "AAAA") (str "my key")
      (by decide) (by decide)).2.1⟩

/-- Claim C7 counterexample: when the remote `cat ~/.ssh/authorized_keys`
runs but exits with status 1, `get_authorized_keys` reports the failure
as `SshError("Command exited with non-zero exit code")`, not as an
`ExecutionError` as the claim (and the spec's error taxonomy) states. -/
theorem C7_counterexample :
    (get_authorized_keys (Except.ok ())
        (Except.ok { exit_status := 1, stdout := [] }) (Except.ok ())).result =
      Except.error (SshClientError.SshError (str "Command exited with non-zero exit code")) ∧
    (match (get_authorized_keys (Except.ok ())
        (Except.ok { exit_status := 1, stdout := [] }) (Except.ok ())).result with
      | Except.error (SshClientError.ExecutionError _) => true
      | _ => false) = false := by
  decide

/-- Claim C7 (amended): `run_command` returns `ExecutionError` whenever
the command ran with a non-zero exit status (and on a transport failure
mid-execution) and returns the stdout otherwise; `get_authorized_keys`
also reports the non-zero-exit case of reading the authorized_keys file
as an error — but as `SshError`, not `ExecutionError` — while a clean
empty result yields zero keys and no error. -/
theorem C7_nonzero_exit_is_error (r : CommandExecutedResult) (e : Str)
    (ins : Except Str Unit) :
    (run_command (Except.ok r) = .ok r.stdout ↔ r.exit_status = 0) ∧
    (r.exit_status ≠ 0 →
      run_command (Except.ok r) =
        .error (.ExecutionError (str "Command exited with code " ++ natToStr r.exit_status))) ∧
    (run_command (Except.error e) = .error (.ExecutionError e)) ∧
    (r.exit_status ≠ 0 →
      (get_authorized_keys (Except.ok ()) (Except.ok r) ins).result =
        .error (.SshError (str "Command exited with non-zero exit code"))) ∧
    ((get_authorized_keys (Except.ok ())
        (Except.ok { exit_status := 0, stdout := [] }) ins).result = .ok []) := by
  refine ⟨?_, ?_, ?_, ?_, ?_⟩
  · constructor
    · intro hok
      by_contra hne
      simp [run_command, hne] at hok
    · intro h0
      simp [run_command, h0]
  · intro hne
    simp [run_command, hne]
  · rfl
  · intro hne
    simp [get_authorized_keys, hne]
  · cases ins <;> simp [get_authorized_keys, rustLines, splitOnNl]

/-- Claim C7 witness for the amended statement, at exit status 1. -/
theorem C7_nonzero_exit_is_error_witness :
    run_command (Except.ok { exit_status := 1, stdout := str "out" }) =
      .error (.ExecutionError (str "Command exited with code " ++ natToStr 1)) ∧
    (get_authorized_keys (Except.ok ())
        (Except.ok { exit_status := 1, stdout := str "out" }) (Except.ok ())).result =
      .error (.SshError (str "Command exited with non-zero exit code")) :=
  ⟨(C7_nonzero_exit_is_error { exit_status := 1, stdout := str "out" } [] (Except.ok ())).2.1
      (by decide),
   (C7_nonzero_exit_is_error { exit_status := 1, stdout := str "out" } [] (Except.ok ())).2.2.2.1
      (by decide)⟩

/-- Claim C8: `from_lines` returns exactly the keys of the individually
parseable lines in input order: over the line list of the input, a line
beginning with `#` or a malformed line is dropped without affecting the
other lines, and a parseable line contributes exactly its key in place. -/
theorem C8_malformed_line_isolation (ls1 ls2 : List Str) (bad good : Str)
    (k : SshPublicKey)
    (hbad : startsWithHash bad = true ∨ sshPublicKey_try_from bad = .error .Malformed)
    (hgood : startsWithHash good = false)
    (hk : sshPublicKey_try_from good = .ok k) :
    processLines (ls1 ++ bad :: ls2) = processLines (ls1 ++ ls2) ∧
    processLines (ls1 ++ good :: ls2) = processLines ls1 ++ k :: processLines ls2 ∧
    (∀ text : Str, from_lines text = processLines (rustLines text)) := by
  refine ⟨?_, ?_, fun _ => rfl⟩
  · rcases hbad with hbad | hbad
    · simp [processLines, List.filter_append, List.filter_cons, hbad]
    · simp [processLines, List.filter_append, List.filterMap_append, List.filter_cons,
        List.filterMap_cons, hbad, Except.toOption]
      rcases h : startsWithHash bad <;>
        simp [List.filterMap_cons, hbad, Except.toOption]
  · simp [processLines, List.filter_append, List.filterMap_append, List.filter_cons,
      List.filterMap_cons, hgood, hk, Except.toOption]

/-- Claim C8 witness: in a three-line input the `#` comment line and the
malformed line are dropped and the two parseable lines survive in
order. -/
theorem C8_malformed_line_isolation_witness :
    processLines ([str "t1 b1"] ++ str "badline" :: [str "t2 b2"]) =
      processLines ([str "t1 b1"] ++ [str "t2 b2"]) ∧
    processLines ([str "t1 b1"] ++ str "t0 b0" :: [str "t2 b2"]) =
      processLines [str "t1 b1"] ++
        { key_type := str "t0", key_base64 := str "b0", comment := none,
          owner := KeyOwner.None } :: processLines [str "t2 b2"] := by
  have h := C8_malformed_line_isolation [str "t1 b1"] [str "t2 b2"]
    (str "badline") (str "t0 b0")
    { key_type := str "t0", key_base64 := str "b0", comment := none, owner := KeyOwner.None }
    (Or.inr (by decide)) (by decide) (by decide)
  exact ⟨h.1, h.2.1⟩

/-- Claim C9 counterexample: with the session established and
`client.execute` failing with a transport error, `get_authorized_keys`
returns early through `?` before the `disconnect` call — the session is
not disconnected on that error path. -/
theorem C9_counterexample :
    ¬ ((get_authorized_keys (Except.ok ()) (Except.error (str "connection reset"))
        (Except.ok ())).disconnected = true) := by
  decide

/-- Claim C9 (amended): once the session is established,
`get_authorized_keys` disconnects it (best-effort, errors swallowed) on
every path in which `client.execute` returned a completed command —
both the non-zero-exit error path and the success path — but not on the
path where `client.execute` itself fails with a transport error, where
the function returns without disconnecting. -/
theorem C9_disconnect_after_execute (exec : Except Str CommandExecutedResult)
    (ins : Except Str Unit) (r : CommandExecutedResult) (e : Str) :
    (exec = .ok r → (get_authorized_keys (Except.ok ()) exec ins).disconnected = true) ∧
    (exec = .error e → (get_authorized_keys (Except.ok ()) exec ins).disconnected = false) := by
  constructor
  · intro h
    subst h
    by_cases h0 : r.exit_status = 0 <;> cases ins <;> simp [get_authorized_keys, h0]
  · intro h
    subst h
    simp [get_authorized_keys]

/-- Claim C9 witness for the amended statement: a completed command with
non-zero exit status still gets its session disconnected. -/
theorem C9_disconnect_after_execute_witness :
    (get_authorized_keys (Except.ok ())
      (Except.ok { exit_status := 1, stdout := [] }) (Except.ok ())).disconnected = true :=
  (C9_disconnect_after_execute (Except.ok { exit_status := 1, stdout := [] })
    (Except.ok ()) { exit_status := 1, stdout := [] } []).1 rfl

/-- Claim C10: converting a stored `PublicKey` record, the owner is
`User(user_id)` whenever `user_id` is present — even if `host_id` is
also present — otherwise `Host(host_id)` whenever `host_id` is present,
otherwise `KeyOwner::None`. -/
theorem C10_owner_precedence (pk : PublicKey) :
    (∀ u, pk.user_id = some u → (sshPublicKey_from_publicKey pk).owner = .User u) ∧
    (∀ h, pk.user_id = none → pk.host_id = some h →
      (sshPublicKey_from_publicKey pk).owner = .Host h) ∧
    (pk.user_id = none → pk.host_id = none →
      (sshPublicKey_from_publicKey pk).owner = .None) := by
  refine ⟨?_, ?_, ?_⟩
  · intro u hu
    simp [sshPublicKey_from_publicKey, hu]
  · intro h hu hh
    simp [sshPublicKey_from_publicKey, hu, hh]
  · intro hu hh
    simp [sshPublicKey_from_publicKey, hu, hh]

/-- Claim C10 witness: a record with both `user_id = 3` and
`host_id = 4` converts to owner `User 3`. -/
theorem C10_owner_precedence_witness :
    (sshPublicKey_from_publicKey
      { key_type := str "t", key_base64 := str "b", comment := none,
        user_id := some 3, host_id := some 4 }).owner = KeyOwner.User 3 :=
  (C10_owner_precedence _).1 3 rfl

theorem chainTerminates_succ (table : List Host) (fuel : Nat) (i : Int) :
    chainTerminates table (fuel + 1) i =
      match lookupHost table i with
      | none => false
      | some h =>
        match h.jump_via with
        | none => true
        | some j => chainTerminates table fuel j := rfl

theorem ClosedTable_cons (table : List Host) (new : Host)
    (hclosed : ClosedTable table)
    (hnew : ∀ j, new.jump_via = some j → ∃ g ∈ table, g.id = j) :
    ClosedTable (new :: table) := by
  intro h hmem j hj
  rcases List.mem_cons.mp hmem with rfl | hmem2
  · obtain ⟨g, hg, hgid⟩ := hnew j hj
    exact ⟨g, List.mem_cons_of_mem _ hg, hgid⟩
  · obtain ⟨g, hg, hgid⟩ := hclosed h hmem2 j hj
    exact ⟨g, List.mem_cons_of_mem _ hg, hgid⟩

theorem AcyclicTable_cons (table : List Host) (new : Host)
    (hclosed : ClosedTable table)
    (hfresh : ∀ h ∈ table, h.id ≠ new.id)
    (hacyclic : AcyclicTable table)
    (hnew : ∀ j, new.jump_via = some j → ∃ g ∈ table, g.id = j) :
    AcyclicTable (new :: table) := by
  intro h hmem
  simp only [List.length_cons]
  rcases List.mem_cons.mp hmem with rfl | hmem2
  · rw [chainTerminates_succ, lookupHost_cons_self rfl]
    show (match h.jump_via with
      | none => true
      | some j => chainTerminates (h :: table) (table.length + 1) j) = true
    cases hnj : h.jump_via with
    | none => rfl
    | some j =>
      show chainTerminates (h :: table) (table.length + 1) j = true
      obtain ⟨g, hg, hgid⟩ := hnew j hnj
      have h1 := hacyclic g hg
      have h2 := chainTerminates_cons table h hfresh hclosed
        (table.length + 1) g.id ⟨g, hg, rfl⟩ h1
      rw [hgid] at h2
      exact h2
  · have h2 := chainTerminates_cons table new hfresh hclosed
      (table.length + 1) h.id ⟨h, hmem2, rfl⟩ (hacyclic h hmem2)
    exact chainTerminates_mono _ (by omega) h2

/-- Claim C2: in the trust-confirmation path of `add_host` (the form
carries a `key_fingerprint`), a `NewHost` is handed to `Host::add_host`
only when the live authentication attempt (`try_authenticate` /
`try_authenticate_via`) verifying exactly the submitted fingerprint has
succeeded, and the persisted record carries that fingerprint; when the
authentication attempt fails, `add_host` returns that error response and
no `NewHost` is handed to the database. -/
theorem C2_auth_gates_persistence (form : HostAddForm) (fp : Str)
    (gid : Int → Except Str (Option Host))
    (nfs : Str → Int → Option ConnectionDetails)
    (ghk : Option Host → ConnectionDetails → Except Str (Except Unit Str))
    (ta : Option Host → ConnectionDetails → Str → Str → Except Str Unit)
    (db : NewHost → Except Str Unit)
    (hfp : form.key_fingerprint = some fp) :
    (∀ nh, (add_host form gid nfs ghk ta db).attempted_insert = some nh →
      nh.key_fingerprint = fp ∧
      ∃ mj a, (add_host form gid nfs ghk ta db).auth_attempt =
          some (mj, a, fp, form.username) ∧
        ta mj a fp form.username = Except.ok ()) ∧
    (∀ mj a f u e,
      (add_host form gid nfs ghk ta db).auth_attempt = some (mj, a, f, u) →
      ta mj a f u = Except.error e →
      f = fp ∧ u = form.username ∧
      (add_host form gid nfs ghk ta db).response = FormResponse.error e ∧
      (add_host form gid nfs ghk ta db).attempted_insert = none) := by
  rcases add_host_cases form gid nfs ghk ta db with ⟨mjv, heq, _⟩ | ⟨hi, ha⟩
  · have hs := add_host_resolved_spec form mjv fp nfs ghk ta db hfp
    rw [heq]
    constructor
    · intro nh h
      obtain ⟨h1, a, h2, h3⟩ := hs.1 nh h
      exact ⟨h1, mjv, a, h2, h3⟩
    · intro mj a f u e h hta
      exact hs.2 mj a f u e h hta
  · constructor
    · intro nh h
      rw [hi] at h
      cases h
    · intro mj a f u e h _
      rw [ha] at h
      cases h

/-- Claim C2 witness: with an authentication oracle that always fails,
the confirmation-path request gets the error response back and no
`NewHost` reaches the database. -/
theorem C2_auth_gates_persistence_witness :
    (add_host { name := str "n", username := str "u", hostname := str "h", port := 22, jumphost := none, key_fingerprint := some (str "FP") } (fun _ => Except.ok none) (fun h p => some { hostname := h, port := p }) (fun _ _ => Except.error (str "x")) (fun _ _ _ _ => Except.error (str "auth failed")) (fun _ => Except.ok ())).response = FormResponse.error (str "auth failed") ∧
    (add_host { name := str "n", username := str "u", hostname := str "h", port := 22, jumphost := none, key_fingerprint := some (str "FP") } (fun _ => Except.ok none) (fun h p => some { hostname := h, port := p }) (fun _ _ => Except.error (str "x")) (fun _ _ _ _ => Except.error (str "auth failed")) (fun _ => Except.ok ())).attempted_insert = none :=
  let h := (C2_auth_gates_persistence { name := str "n", username := str "u", hostname := str "h", port := 22, jumphost := none, key_fingerprint := some (str "FP") } (str "FP") (fun _ => Except.ok none) (fun h p => some { hostname := h, port := p }) (fun _ _ => Except.error (str "x")) (fun _ _ _ _ => Except.error (str "auth failed")) (fun _ => Except.ok ()) rfl).2 none { hostname := str "h", port := 22 } (str "FP") (str "u") (str "auth failed") (by decide) rfl
  ⟨h.2.2.1, h.2.2.2⟩

/-- Claim C3: a request through `add_host` can never create a cycle in
the `jump_via` relation — the stored `jump_via` of the inserted host
refers to a host already present in the table, so the claim's rejection
clause is vacuously satisfied (no cycle-forming `jump_via` value exists
for a freshly inserted host) — and inserting the new record under a
fresh database id keeps the persisted `jump_via` relation closed,
acyclic and terminating: from every host the chain ends in a host with
no `jump_via`. -/
theorem C3_jump_via_acyclic (table : List Host) (form : HostAddForm) (new_id : Int)
    (gid : Int → Except Str (Option Host))
    (nfs : Str → Int → Option ConnectionDetails)
    (ghk : Option Host → ConnectionDetails → Except Str (Except Unit Str))
    (ta : Option Host → ConnectionDetails → Str → Str → Except Str Unit)
    (db : NewHost → Except Str Unit)
    (hlookup : ∀ via h, gid via = Except.ok (some h) → h ∈ table ∧ h.id = via)
    (hclosed : ClosedTable table) (hacyclic : AcyclicTable table)
    (hfresh : ∀ h ∈ table, h.id ≠ new_id) :
    ∀ nh, (add_host form gid nfs ghk ta db).attempted_insert = some nh →
      (∀ j, nh.jump_via = some j → ∃ g ∈ table, g.id = j) ∧
      ClosedTable (insertNewHost table nh new_id) ∧
      AcyclicTable (insertNewHost table nh new_id) := by
  intro nh hins
  rcases add_host_cases form gid nfs ghk ta db with ⟨mj, heq, hmj⟩ | ⟨hnone, _⟩
  · rw [heq] at hins
    have hjv := add_host_resolved_insert_jump form mj nfs ghk ta db nh hins
    have hrow : ∀ j, nh.jump_via = some j → ∃ g ∈ table, g.id = j := by
      intro j hji
      rw [hjv] at hji
      cases mj with
      | none => simp at hji
      | some hst =>
        simp only [Option.map_some'] at hji
        rcases hmj with hmn | ⟨via, hjf, hgid⟩
        · exact absurd hmn (by simp)
        · obtain ⟨hmem, _⟩ := hlookup via hst hgid
          exact ⟨hst, hmem, by simpa using hji⟩
    refine ⟨hrow, ?_, ?_⟩
    · exact ClosedTable_cons table _ hclosed (fun j hj => hrow j hj)
    · exact AcyclicTable_cons table _ hclosed hfresh hacyclic (fun j hj => hrow j hj)
  · rw [hnone] at hins
    cases hins

/-- Claim C3 witness: adding a first host (empty table, no jump host)
under fresh id 1 yields a closed, acyclic, terminating table. -/
theorem C3_jump_via_acyclic_witness :
    ClosedTable (insertNewHost [] { name := str "n", hostname := str "h", port := 22, username := str "u", key_fingerprint := str "FP", jump_via := none } 1) ∧
    AcyclicTable (insertNewHost [] { name := str "n", hostname := str "h", port := 22, username := str "u", key_fingerprint := str "FP", jump_via := none } 1) :=
  let h := C3_jump_via_acyclic [] { name := str "n", username := str "u", hostname := str "h", port := 22, jumphost := none, key_fingerprint := some (str "FP") } 1 (fun _ => Except.ok none) (fun h p => some { hostname := h, port := p }) (fun _ _ => Except.error (str "x")) (fun _ _ _ _ => Except.ok ()) (fun _ => Except.ok ())
    (by intro via h hvia; simp at hvia)
    (by intro h hh; simp at hh)
    (by intro h hh; simp at hh)
    (by intro h hh; simp at hh)
    { name := str "n", hostname := str "h", port := 22, username := str "u", key_fingerprint := str "FP", jump_via := none }
    (by decide)
  ⟨h.2.1, h.2.2⟩
